import Mathlib

/-!
Shallow embedding of the source-generation visitors of astmonkey
(src/astmonkey/visitors.py): the output-buffer state machine
(write / correct_line_number / add_missing_lines / write_newline / newline),
the operator symbol tables, and the dialect chain of
BaseSourceGeneratorNodeVisitor and its SourceGeneratorNodeVisitorPythonXY
subclasses, restricted to the node kinds the verified claims are about.
Strings are modelled as lists of characters; the buffer `result` is the
list of appended fragments, exactly as in the Python code.
-/

namespace Astmonkey

/-- Dialect versions of the chain, in order of
SourceGeneratorNodeVisitorPython26 .. Python36. -/
inductive PyVersion where
  | py26
  | py27
  | py30
  | py31
  | py32
  | py33
  | py34
  | py35
  | py36
deriving DecidableEq, Fintype, Repr

/-- Position of a version in the dialect chain; a method override introduced
in class X is active for X and every later class (single inheritance). -/
def PyVersion.idx : PyVersion → Nat
  | .py26 => 0
  | .py27 => 1
  | .py30 => 2
  | .py31 => 3
  | .py32 => 4
  | .py33 => 5
  | .py34 => 6
  | .py35 => 7
  | .py36 => 8

/-- Boolean operator kinds (ast.boolop). -/
inductive BoolOpKind where
  | And
  | Or
deriving DecidableEq, Fintype, Repr

/-- Binary operator kinds (ast.operator).  MatMult is part of the grammar
from Python 3.5 on but has no entry in BINOP_SYMBOLS in the source. -/
inductive BinOpKind where
  | Add
  | Sub
  | Mult
  | Div
  | FloorDiv
  | Mod
  | LShift
  | RShift
  | BitOr
  | BitAnd
  | BitXor
  | Pow
  | MatMult
deriving DecidableEq, Fintype, Repr

/-- Comparison operator kinds (ast.cmpop). -/
inductive CmpOpKind where
  | Eq
  | Gt
  | GtE
  | In
  | Is
  | IsNot
  | Lt
  | LtE
  | NotEq
  | NotIn
deriving DecidableEq, Fintype, Repr

/-- Unary operator kinds (ast.unaryop). -/
inductive UnaryOpKind where
  | Invert
  | Not
  | UAdd
  | USub
deriving DecidableEq, Fintype, Repr

/-- BOOLOP_SYMBOLS dict: a lookup that misses raises KeyError in Python,
modelled as an Option-valued table. -/
def BOOLOP_SYMBOLS : BoolOpKind → Option (List Char)
  | .And => some "and".data
  | .Or => some "or".data

/-- BINOP_SYMBOLS dict from the source; ast.MatMult has no key there. -/
def BINOP_SYMBOLS : BinOpKind → Option (List Char)
  | .Add => some "+".data
  | .Sub => some "-".data
  | .Mult => some "*".data
  | .Div => some "/".data
  | .FloorDiv => some "//".data
  | .Mod => some "%".data
  | .LShift => some "<<".data
  | .RShift => some ">>".data
  | .BitOr => some "|".data
  | .BitAnd => some "&".data
  | .BitXor => some "^".data
  | .Pow => some "**".data
  | .MatMult => none

/-- CMPOP_SYMBOLS dict from the source. -/
def CMPOP_SYMBOLS : CmpOpKind → Option (List Char)
  | .Eq => some "==".data
  | .Gt => some ">".data
  | .GtE => some ">=".data
  | .In => some "in".data
  | .Is => some "is".data
  | .IsNot => some "is not".data
  | .Lt => some "<".data
  | .LtE => some "<=".data
  | .NotEq => some "!=".data
  | .NotIn => some "not in".data

/-- UNARYOP_SYMBOLS dict from the source. -/
def UNARYOP_SYMBOLS : UnaryOpKind → Option (List Char)
  | .Invert => some "~".data
  | .Not => some "not".data
  | .UAdd => some "+".data
  | .USub => some "-".data

/-- Python s.split with separator a newline, on a list of characters:
always returns at least one (possibly empty) piece. -/
def pySplitNl : List Char → List (List Char)
  | [] => [[]]
  | c :: cs =>
    if c = '\n' then [] :: pySplitNl cs
    else
      match pySplitNl cs with
      | [] => [[c]]
      | l :: ls => (c :: l) :: ls

/-- Mutable state of a BaseSourceGeneratorNodeVisitor instance: the result
fragment list, the indentation unit and level, and the pending-newline flag. -/
structure GenState where
  result : List (List Char)
  indent_with : List Char
  indentation : Nat
  new_line : Bool
deriving DecidableEq, Repr

/-- State produced by the constructor, given indent_with. -/
def initState (iw : List Char) : GenState :=
  { result := [], indent_with := iw, indentation := 0, new_line := false }

/-- write_newline: append a newline (only when the buffer is nonempty)
followed by the current indentation, and clear the pending-newline flag. -/
def write_newline (s : GenState) : GenState :=
  let r := if s.result.isEmpty then s.result else s.result ++ [['\n']]
  { s with
    result := r ++ [(List.replicate s.indentation s.indent_with).flatten],
    new_line := false }

/-- The line count the source computes in add_missing_lines:
len of joining the buffer and splitting on newlines, or 0 for an
empty fragment list. -/
def lines_in (s : GenState) : Nat :=
  if s.result.isEmpty then 0 else (pySplitNl s.result.flatten).length

/-- add_missing_lines: compute node.lineno minus the current line count and,
when the difference is nonzero, run write_newline once per element of the
Python range of that difference (so a negative difference runs it zero
times). -/
def add_missing_lines (s : GenState) (lineno : Nat) : GenState :=
  let line_diff : Int := (lineno : Int) - (lines_in s : Int)
  if line_diff = 0 then s else write_newline^[line_diff.toNat] s

/-- correct_line_number: materialize a pending newline, then reconcile with
the node's line number when the node is present and carries one.  The node
argument is collapsed to its optional lineno, which is all the source reads
of it here. -/
def correct_line_number (s : GenState) (lineno : Option Nat) : GenState :=
  let s1 := if s.new_line then write_newline s else s
  match lineno with
  | some l => add_missing_lines s1 l
  | none => s1

/-- write: reconcile, then append the fragment. -/
def write (s : GenState) (x : List Char) (lineno : Option Nat) : GenState :=
  let s1 := correct_line_number s lineno
  { s1 with result := s1.result ++ [x] }

/-- newline: set the pending-newline flag and reconcile immediately. -/
def newline (s : GenState) (lineno : Option Nat) : GenState :=
  correct_line_number { s with new_line := true } lineno

/-- Errors a render can abort with.  A symbol-table lookup that misses is a
Python KeyError raised out of the visitor; the specification names it
UnsupportedOperator. -/
inductive RenderError where
  | unsupportedOperator
deriving DecidableEq, Fintype, Repr

mutual

/-- Expression nodes of the rendered fragment of the grammar.  Name keeps
its optional lineno because visit_Name passes the node to write; the other
modelled expression visitors write without a node. -/
inductive Expr where
  | Name (id : List Char) (lineno : Option Nat)
  | Num (n : Int)
  | Str (s : List Char)
  | Tuple (elts : List Expr)
  | BinOp (left : Expr) (op : BinOpKind) (right : Expr)
  | BoolOp (op : BoolOpKind) (values : List Expr)
  | Compare (left : Expr) (ops : List CmpOpKind) (comparators : List Expr)
  | UnaryOp (op : UnaryOpKind) (operand : Expr)
  | Call (func : Expr) (args : List Expr) (keywords : List Keyword)
      (starargs : Option Expr) (kwargs : Option Expr)
  | Starred (value : Expr)
  | Yield (value : Option Expr)
  | YieldFrom (value : Expr)

/-- ast.keyword: a None arg is a nameless keyword spread. -/
inductive Keyword where
  | mk (arg : Option (List Char)) (value : Expr)

end

/-- ast.arg of a signature; in the py2 dialects positional parameters are
Name nodes and in py3 dialects arg objects, both rendering their name text.
The field after the name is the py3 annotation. -/
inductive Arg where
  | mk (arg : List Char) ( annotation : Option Expr)

/-- Name text of a signature parameter. -/
def Arg.argName : Arg → List Char
  | .mk a _ => a

/-- Annotation of a signature parameter. -/
def Arg.argAnnotation : Arg → Option Expr
  | .mk _ an => an

/-- ast.arguments: positional parameters, single vararg and kwarg (their
rendered name text), and the trailing defaults. -/
inductive Arguments where
  | mk (args : List Arg) (vararg : Option (List Char))
      (kwarg : Option (List Char)) (defaults : List Expr)

def Arguments.args : Arguments → List Arg
  | .mk a _ _ _ => a

def Arguments.vararg : Arguments → Option (List Char)
  | .mk _ v _ _ => v

def Arguments.kwarg : Arguments → Option (List Char)
  | .mk _ _ k _ => k

def Arguments.defaults : Arguments → List Expr
  | .mk _ _ _ d => d

/-- Statement nodes of the rendered fragment.  ClassDef keywords is an
Option because the py2 grammar has no such field (the hasattr check of
_is_node_args_valid). -/
inductive Stmt where
  | ExprStmt (value : Expr) (lineno : Option Nat)
  | Pass (lineno : Option Nat)
  | Break (lineno : Option Nat)
  | Continue (lineno : Option Nat)
  | Global (names : List (List Char)) (lineno : Option Nat)
  | Return (value : Option Expr) (lineno : Option Nat)
  | FunctionDef (name : List Char) (args : Arguments) (body : List Stmt)
      (decorator_list : List Expr) (returns : Option Expr) (lineno : Option Nat)
  | ClassDef (name : List Char) (bases : List Expr)
      (keywords : Option (List Keyword)) (body : List Stmt)
      (decorator_list : List Expr) (lineno : Option Nat)

/-- Lineno read off an expression node by self.newline(decorator); in this
embedding only Name nodes carry one. -/
def exprLineno : Expr → Option Nat
  | .Name _ ln => ln
  | _ => none

/-- isinstance(arg, ast.Starred) test of the Python35 call_signature. -/
def isStarred : Expr → Bool
  | .Starred _ => true
  | _ => false

/-- Python truthiness of keyword.arg (None and the empty string are falsy),
the test the Python35 call_signature applies. -/
def kwTruthy : Keyword → Bool
  | .mk (some a) _ => !a.isEmpty
  | .mk none _ => false

/-- Python repr of a string, modelled for strings without quote or escape
characters (no claim depends on visit_Str output). -/
def pyReprStr (s : List Char) : List Char :=
  '\'' :: (s ++ ['\''])

/-- signature_vararg: no visitor recursion, writes a star and the name.
The base dialect reads the py2 string field and Python34 the arg object's
name; both write the same text, modelled once. -/
def signature_vararg (node : Arguments) (wc : Bool) (s : GenState) :
    GenState × Bool :=
  match node.vararg with
  | none => (s, wc)
  | some nm =>
    let s1 := if wc then write s ", ".data none else s
    (write s1 ('*' :: nm) none, true)

/-- signature_kwarg, as signature_vararg with a doubled marker. -/
def signature_kwarg (node : Arguments) (wc : Bool) (s : GenState) :
    GenState × Bool :=
  match node.kwarg with
  | none => (s, wc)
  | some nm =>
    let s1 := if wc then write s ", ".data none else s
    (write s1 ('*' :: '*' :: nm) none, true)

mutual

/-- Dispatch on an expression node under dialect v: the visit_X method of
the most derived class at or below v that defines one; a kind with no
method in scope falls through to ast.NodeVisitor.generic_visit, which just
visits the child nodes.  The two call_signature bodies (base and Python35)
are spelled out inline in the Call arm; the standalone call_signature
definition below mirrors them and is proved equal to this arm. -/
def visitExpr (v : PyVersion) : Expr → GenState → Except RenderError GenState
  | .Name id ln, s => .ok (write s id ln)
  | .Num n, s => .ok (write s (toString n).data none)
  | .Str str, s => .ok (write s (pyReprStr str) none)
  | .Tuple elts, s => do
    let s1 := write s "(".data none
    let s2 ← tupleLoop v elts 0 s1
    .ok (write s2 (if ((elts.length : Int) - 1) = 0 then ",)".data else ")".data) none)
  | .BinOp l op r, s => do
    let s1 ← visitExpr v l s
    match BINOP_SYMBOLS op with
    | none => .error RenderError.unsupportedOperator
    | some t =>
      let s2 := write s1 (' ' :: (t ++ [' '])) none
      visitExpr v r s2
  | .BoolOp op values, s => do
    let s1 := write s "(".data none
    let s2 ← boolopLoop v op values 0 s1
    .ok (write s2 ")".data none)
  | .Compare l ops comps, s => do
    let s1 ← visitExpr v l s
    compareLoop v ops comps s1
  | .UnaryOp op operand, s => do
    let s1 := write s "(".data none
    match UNARYOP_SYMBOLS op with
    | none => .error RenderError.unsupportedOperator
    | some t =>
      let s2 := write s1 t none
      let s3 := if t = "not".data then write s2 " ".data none else s2
      let s4 ← visitExpr v operand s3
      .ok (write s4 ")".data none)
  | .Call func args keywords starargs kwargs, s => do
    let s1 ← visitExpr v func s
    let s2 := write s1 "(".data none
    let s3 ←
      if PyVersion.py35.idx ≤ v.idx then do
        let (t1, wc1) ← callArgsLoop v (fun a => isStarred a) args false s2
        let (t2, wc2) ← callKwLoop v (fun k => !kwTruthy k) keywords wc1 t1
        let (t3, wc3) ← callArgsLoop v (fun a => !isStarred a) args wc2 t2
        let (t4, _) ← callKwLoop v (fun k => kwTruthy k) keywords wc3 t3
        Except.ok t4
      else do
        let (t1, wc1) ← callArgsLoop v (fun _ => false) args false s2
        let (t2, wc2) ← callKwLoop v (fun _ => false) keywords wc1 t1
        let (t3, wc3) ← starargsWrite v starargs wc2 t2
        let (t4, _) ← kwargsWrite v kwargs wc3 t3
        Except.ok t4
    .ok (write s3 ")".data none)
  | .Starred val, s => do
    let s1 := write s "*".data none
    visitExpr v val s1
  | .Yield val, s => do
    let s1 := write s "yield".data none
    match val with
    | some e => visitExpr v e (write s1 " ".data none)
    | none => .ok s1
  | .YieldFrom val, s =>
    if PyVersion.py33.idx ≤ v.idx then do
      let s1 := write s "yield from ".data none
      visitExpr v val s1
    else
      visitExpr v val s

/-- visit_keyword: the named form writes the name and an equals sign, the
nameless form a doubled star, then the value is visited. -/
def visitKeyword (v : PyVersion) : Keyword → GenState → Except RenderError GenState
  | .mk arg value, s =>
    let s1 := match arg with
      | some a => write s (a ++ "=".data) none
      | none => write s "**".data none
    visitExpr v value s1

/-- visit_Tuple element loop: a comma before every element whose enumerate
index is nonzero. -/
def tupleLoop (v : PyVersion) : List Expr → Nat → GenState → Except RenderError GenState
  | [], _, s => .ok s
  | e :: es, idx, s => do
    let s1 := if idx ≠ 0 then write s ", ".data none else s
    let s2 ← visitExpr v e s1
    tupleLoop v es (idx + 1) s2

/-- visit_BoolOp value loop: the symbol-table lookup happens inside the
loop, only at indices past the first. -/
def boolopLoop (v : PyVersion) (op : BoolOpKind) :
    List Expr → Nat → GenState → Except RenderError GenState
  | [], _, s => .ok s
  | e :: es, idx, s => do
    let s1 ← if idx ≠ 0 then
        match BOOLOP_SYMBOLS op with
        | none => Except.error RenderError.unsupportedOperator
        | some t => Except.ok (write s (' ' :: (t ++ [' '])) none)
      else Except.ok s
    let s2 ← visitExpr v e s1
    boolopLoop v op es (idx + 1) s2

/-- visit_Compare loop over zip of ops and comparators (zip truncation as
in Python). -/
def compareLoop (v : PyVersion) :
    List CmpOpKind → List Expr → GenState → Except RenderError GenState
  | op :: ops, r :: rs, s =>
    match CMPOP_SYMBOLS op with
    | none => .error RenderError.unsupportedOperator
    | some t => do
      let s1 := write s (' ' :: (t ++ [' '])) none
      let s2 ← visitExpr v r s1
      compareLoop v ops rs s2
  | _, _, s => .ok s

/-- call_signature positional-argument loop with the shared want_comma
flag.  The base loop renders every element (skip always false); the
Python35 loop appends starred elements to a local list rendered after the
keywords, which is the same as one pass skipping them and a second pass
over node.args skipping the others, so both passes reuse this loop with
the respective skip test. -/
def callArgsLoop (v : PyVersion) (skip : Expr → Bool) :
    List Expr → Bool → GenState → Except RenderError (GenState × Bool)
  | [], wc, s => .ok (s, wc)
  | a :: as, wc, s =>
    if skip a then callArgsLoop v skip as wc s
    else do
      let s1 := if wc then write s ", ".data none else s
      let s2 ← visitExpr v a s1
      callArgsLoop v skip as true s2

/-- call_signature keyword loop, same skip-parameter treatment: Python35
collects keywords with a falsy arg into a local list rendered last. -/
def callKwLoop (v : PyVersion) (skip : Keyword → Bool) :
    List Keyword → Bool → GenState → Except RenderError (GenState × Bool)
  | [], wc, s => .ok (s, wc)
  | k :: ks, wc, s =>
    if skip k then callKwLoop v skip ks wc s
    else do
      let s1 := if wc then write s ", ".data none else s
      let s2 ← visitKeyword v k s1
      callKwLoop v skip ks true s2

/-- Base call_signature starargs tail: comma, star, the spread expression. -/
def starargsWrite (v : PyVersion) :
    Option Expr → Bool → GenState → Except RenderError (GenState × Bool)
  | none, wc, s => .ok (s, wc)
  | some e, wc, s => do
    let s1 := if wc then write s ", ".data none else s
    let s2 := write s1 "*".data none
    let s3 ← visitExpr v e s2
    .ok (s3, true)

/-- Base call_signature kwargs tail: comma, doubled star, the spread. -/
def kwargsWrite (v : PyVersion) :
    Option Expr → Bool → GenState → Except RenderError (GenState × Bool)
  | none, wc, s => .ok (s, wc)
  | some e, wc, s => do
    let s1 := if wc then write s ", ".data none else s
    let s2 := write s1 "**".data none
    let s3 ← visitExpr v e s2
    .ok (s3, true)

end

/-- call_signature: Python35 and later defer starred positional spreads
and nameless keyword spreads to the end; the base version renders
node.args, node.keywords, then the starargs and kwargs fields. -/
def call_signature (v : PyVersion) (args : List Expr) (keywords : List Keyword)
    (starargs : Option Expr) (kwargs : Option Expr) (s : GenState) :
    Except RenderError GenState :=
  if PyVersion.py35.idx ≤ v.idx then do
    let (s1, wc1) ← callArgsLoop v (fun a => isStarred a) args false s
    let (s2, wc2) ← callKwLoop v (fun k => !kwTruthy k) keywords wc1 s1
    let (s3, wc3) ← callArgsLoop v (fun a => !isStarred a) args wc2 s2
    let (s4, _) ← callKwLoop v (fun k => kwTruthy k) keywords wc3 s3
    .ok s4
  else do
    let (s1, wc1) ← callArgsLoop v (fun _ => false) args false s
    let (s2, wc2) ← callKwLoop v (fun _ => false) keywords wc1 s1
    let (s3, wc3) ← starargsWrite v starargs wc2 s2
    let (s4, _) ← kwargsWrite v kwargs wc3 s3
    .ok s4

/-- signature_arg: comma when the flag is set, the parameter name, then
`=default` when a default is paired; from Python30 on an annotation suffix
follows when present. -/
def signature_arg (v : PyVersion) (a : Arg) (dflt : Option Expr) (wc : Bool)
    (s : GenState) : Except RenderError (GenState × Bool) := do
  let s1 := if wc then write s ", ".data none else s
  let s2 := write s1 a.argName none
  let s3 ← match dflt with
    | some d => visitExpr v d (write s2 "=".data none)
    | none => Except.ok s2
  let s4 ← if PyVersion.py30.idx ≤ v.idx then
      match a.argAnnotation with
      | some an => visitExpr v an (write s3 ": ".data none)
      | none => Except.ok s3
    else Except.ok s3
  .ok (s4, true)

/-- signature loop over zip(args, padding + defaults): the first pad
parameters render without a default, the rest pair with the defaults in
order; the zip truncates when either side runs out. -/
def signature_args_loop (v : PyVersion) :
    List Arg → Nat → List Expr → Bool → GenState →
    Except RenderError (GenState × Bool)
  | [], _, _, wc, s => .ok (s, wc)
  | a :: as, pad, ds, wc, s =>
    if pad = 0 then
      match ds with
      | [] => .ok (s, wc)
      | d :: ds' => do
        let (s1, wc1) ← signature_arg v a (some d) wc s
        signature_args_loop v as 0 ds' wc1 s1
    else do
      let (s1, wc1) ← signature_arg v a none wc s
      signature_args_loop v as (pad - 1) ds wc1 s1

/-- signature: positional parameters zipped against None padding plus the
defaults, then the vararg and kwarg with the shared want_comma flag. -/
def signature (v : PyVersion) (node : Arguments) (s : GenState) :
    Except RenderError (GenState × Bool) := do
  let pad := node.args.length - node.defaults.length
  let (s1, wc1) ← signature_args_loop v node.args pad node.defaults false s
  let (s2, wc2) := signature_vararg node wc1 s1
  let (s3, wc3) := signature_kwarg node wc2 s2
  .ok (s3, wc3)

/-- decorators: each decorator gets a newline reconciled against the
decorator node, an at sign, and its expression. -/
def decoratorsLoop (v : PyVersion) :
    List Expr → GenState → Except RenderError GenState
  | [], s => .ok s
  | d :: ds, s => do
    let s1 := newline s (exprLineno d)
    let s2 := write s1 "@".data none
    let s3 ← visitExpr v d s2
    decoratorsLoop v ds s3

/-- visit_ClassDef base/keyword loop over bases with the have_args flag of
paren_or_comma. -/
def classArgsLoop (v : PyVersion) :
    List Expr → Bool → GenState → Except RenderError (GenState × Bool)
  | [], ha, s => .ok (s, ha)
  | b :: bs, ha, s => do
    let s1 := if ha then write s ", ".data none else write s "(".data none
    let s2 ← visitExpr v b s1
    classArgsLoop v bs true s2

/-- Python30 visit_ClassDef keyword loop, continuing the have_args flag. -/
def classKwLoop (v : PyVersion) :
    List Keyword → Bool → GenState → Except RenderError (GenState × Bool)
  | [], ha, s => .ok (s, ha)
  | k :: ks, ha, s => do
    let s1 := if ha then write s ", ".data none else write s "(".data none
    let s2 ← visitKeyword v k s1
    classKwLoop v ks true s2

mutual

/-- Statement dispatch under dialect v.  The body method (request a
newline, indent, render the statements, restore the indentation) is
spelled out inline in the block-statement arms; the standalone bodyBlock
definition below mirrors it and is proved equal to these arms. -/
def visitStmt (v : PyVersion) : Stmt → GenState → Except RenderError GenState
  | .ExprStmt value ln, s =>
    match value with
    | .Str str => .ok (write s ("\"\"\"".data ++ str ++ "\"\"\"".data) none)
    | e => visitExpr v e (newline s ln)
  | .Pass ln, s => .ok (write (newline s ln) "pass".data ln)
  | .Break ln, s => .ok (write (newline s ln) "break".data none)
  | .Continue ln, s => .ok (write (newline s ln) "continue".data none)
  | .Global names ln, s =>
    .ok (write (newline s ln) ("global ".data ++ List.intercalate ", ".data names) none)
  | .Return val ln, s => do
    let s1 := newline s ln
    let s2 := write s1 "return".data none
    match val with
    | none => .ok s2
    | some e => visitExpr v e (write s2 " ".data none)
  | .FunctionDef name args body decs returns ln, s =>
    if PyVersion.py30.idx ≤ v.idx then do
      let s1 ← decoratorsLoop v decs s
      let s2 := newline s1 ln
      let s3 := write s2 ("def ".data ++ name ++ "(".data) ln
      let (s4, _) ← signature v args s3
      let s5 := write s4 ")".data none
      let s6 ← match returns with
        | some r => visitExpr v r (write s5 " -> ".data none)
        | none => Except.ok s5
      let s7 := write s6 ":".data none
      let s8 := { s7 with new_line := true, indentation := s7.indentation + 1 }
      let s9 ← visitStmtList v body s8
      Except.ok { s9 with indentation := s9.indentation - 1 }
    else do
      let s1 ← decoratorsLoop v decs s
      let s2 := newline s1 ln
      let s3 := write s2 [] none
      let s4 := write s3 ("def ".data ++ name ++ "(".data) ln
      let (s5, _) ← signature v args s4
      let s6 := write s5 "):".data none
      let s7 := { s6 with new_line := true, indentation := s6.indentation + 1 }
      let s8 ← visitStmtList v body s7
      Except.ok { s8 with indentation := s8.indentation - 1 }
  | .ClassDef name bases keywords body decs ln, s =>
    if PyVersion.py30.idx ≤ v.idx then do
      let s1 ← decoratorsLoop v decs s
      let s2 := newline s1 ln
      let s3 := write s2 ("class ".data ++ name) ln
      let (s4, ha1) ← classArgsLoop v bases false s3
      let (s5, ha2) ← match keywords with
        | some ks => classKwLoop v ks ha1 s4
        | none => Except.ok (s4, ha1)
      let s6 := write s5 (if ha2 then "):".data else ":".data) none
      let s7 := { s6 with new_line := true, indentation := s6.indentation + 1 }
      let s8 ← visitStmtList v body s7
      Except.ok { s8 with indentation := s8.indentation - 1 }
    else do
      let s1 ← decoratorsLoop v decs s
      let s2 := newline s1 ln
      let s3 := write s2 ("class ".data ++ name) ln
      let (s4, ha) ← classArgsLoop v bases false s3
      let s5 := write s4 (if ha then "):".data else ":".data) none
      let s6 := { s5 with new_line := true, indentation := s5.indentation + 1 }
      let s7 ← visitStmtList v body s6
      Except.ok { s7 with indentation := s7.indentation - 1 }

/-- Statement sequence, as both ast.NodeVisitor.generic_visit on a Module
and the loop inside body. -/
def visitStmtList (v : PyVersion) :
    List Stmt → GenState → Except RenderError GenState
  | [], s => .ok s
  | st :: rest, s => do
    let s1 ← visitStmt v st s
    visitStmtList v rest s1

end

/-- body: request a newline, indent one level, render the statements,
restore the indentation. -/
def bodyBlock (v : PyVersion) (stmts : List Stmt) (s : GenState) :
    Except RenderError GenState := do
  let s1 := { s with new_line := true, indentation := s.indentation + 1 }
  let s2 ← visitStmtList v stmts s1
  .ok { s2 with indentation := s2.indentation - 1 }

/-- to_source on a Module node: fresh generator state, generic dispatch
over the module body, then the joined fragment list. -/
def to_source (v : PyVersion) (body : List Stmt) (indent_with : List Char) :
    Except RenderError (List Char) := do
  let s ← visitStmtList v body (initState indent_with)
  .ok s.result.flatten

instance {ε α : Type} [DecidableEq ε] [DecidableEq α] : DecidableEq (Except ε α) :=
  fun a b =>
    match a, b with
    | .ok x, .ok y =>
      if h : x = y then .isTrue (by rw [h]) else .isFalse (fun c => h (Except.ok.inj c))
    | .error x, .error y =>
      if h : x = y then .isTrue (by rw [h]) else .isFalse (fun c => h (Except.error.inj c))
    | .ok _, .error _ => .isFalse (fun c => Except.noConfusion c)
    | .error _, .ok _ => .isFalse (fun c => Except.noConfusion c)

/-- Comma-separated text with the one-shot want_comma flag: the flag says
whether a separator precedes the first item; every later item gets one. -/
def withCommas : Bool → List (List Char) → List Char
  | _, [] => []
  | wc, t :: ts => (if wc then ", ".data else []) ++ t ++ withCommas true ts

/-- Inline-rendering contract: visiting e from any state with no pending
newline succeeds, touches only the buffer, and appends exactly the text t. -/
def RendersInline (v : PyVersion) (e : Expr) (t : List Char) : Prop :=
  ∀ s, s.new_line = false →
    ∃ r, visitExpr v e s = .ok { s with result := r } ∧
      r.flatten = s.result.flatten ++ t

/-- Inline-rendering contract for keyword nodes. -/
def RendersKwInline (v : PyVersion) (k : Keyword) (t : List Char) : Prop :=
  ∀ s, s.new_line = false →
    ∃ r, visitKeyword v k s = .ok { s with result := r } ∧
      r.flatten = s.result.flatten ++ t

/-- Texts produced by the signature positional loop: pad names without
defaults, then names paired with default texts, truncating like zip. -/
def sigTexts : List (List Char) → Nat → List (List Char) → List (List Char)
  | [], _, _ => []
  | _ :: _, 0, [] => []
  | n :: ns, 0, d :: ds => (n ++ "=".data ++ d) :: sigTexts ns 0 ds
  | n :: ns, pad + 1, ds => n :: sigTexts ns pad ds

/-- Fragments appended by k write_newline calls at indentation zero. -/
def nlFrags (k : Nat) : List (List Char) :=
  (List.replicate k [['\n'], ([] : List Char)]).flatten

/-- Statements whose visit is one reconciled newline against their line
number followed by a single text write: their line number and text. -/
def stmtSimple : Stmt → Option (Nat × List Char)
  | .Pass (some l) => some (l, "pass".data)
  | .Break (some l) => some (l, "break".data)
  | .Continue (some l) => some (l, "continue".data)
  | .Global names (some l) =>
    some (l, "global ".data ++ List.intercalate ", ".data names)
  | _ => none

theorem pySplitNl_ne_nil (l : List Char) : pySplitNl l ≠ [] := by
  induction l with
  | nil => simp [pySplitNl]
  | cons c cs ih =>
    rw [pySplitNl]
    split
    · simp
    · split
      · simp
      · simp

theorem pySplitNl_cons_nl (cs : List Char) :
    pySplitNl ('\n' :: cs) = [] :: pySplitNl cs := by
  rw [pySplitNl]
  simp

theorem pySplitNl_append_not_nl (t : List Char) (h : t.count '\n' = 0) :
    ∀ (m : List Char) (a : List Char) (as : List (List Char)),
      pySplitNl m = a :: as → pySplitNl (t ++ m) = (t ++ a) :: as := by
  induction t with
  | nil => intro m a as hm; simpa using hm
  | cons c cs ih =>
    intro m a as hm
    have hc : c ≠ '\n' := by
      intro hc
      rw [List.count_cons] at h
      simp [hc] at h
    have hcs : cs.count '\n' = 0 := by
      rw [List.count_cons] at h
      omega
    have := ih hcs m a as hm
    rw [List.cons_append, pySplitNl]
    simp only [if_neg (by simpa using hc)]
    rw [this]
    rfl

theorem pySplitNl_replicate_nl (k : Nat) (m : List Char) :
    pySplitNl (List.replicate k '\n' ++ m) =
      List.replicate k [] ++ pySplitNl m := by
  induction k with
  | zero => simp
  | succ n ih =>
    rw [List.replicate_succ, List.cons_append, pySplitNl_cons_nl, ih,
      List.replicate_succ, List.cons_append]

theorem pySplitNl_no_nl (t : List Char) (h : t.count '\n' = 0) :
    pySplitNl t = [t] := by
  have := pySplitNl_append_not_nl t h [] [] [] (by rw [pySplitNl])
  simpa using this

theorem pySplitNl_length (l : List Char) :
    (pySplitNl l).length = l.count '\n' + 1 := by
  induction l with
  | nil => simp [pySplitNl]
  | cons c cs ih =>
    rw [pySplitNl]
    by_cases hc : c = '\n'
    · simp only [if_pos hc, List.length_cons, ih, List.count_cons]
      simp [hc]
    · simp only [if_neg hc]
      obtain ⟨a, as, has⟩ : ∃ a as, pySplitNl cs = a :: as := by
        cases h : pySplitNl cs with
        | nil => exact absurd h (pySplitNl_ne_nil cs)
        | cons a as => exact ⟨a, as, rfl⟩
      rw [has]
      have h2 : as.length + 1 = List.count '\n' cs + 1 := by
        rw [← ih, has]
        simp
      have h3 : List.count '\n' (c :: cs) = List.count '\n' cs := by
        rw [List.count_cons]
        simp [hc]
      simp only [List.length_cons, h3]
      omega

theorem lines_in_eq (s : GenState) (h : s.result ≠ []) :
    lines_in s = s.result.flatten.count '\n' + 1 := by
  rw [lines_in, if_neg (by simpa [List.isEmpty_iff] using h), pySplitNl_length]

theorem correct_line_number_none (s : GenState) (h : s.new_line = false) :
    correct_line_number s none = s := by
  simp [correct_line_number, h]

theorem write_none_clean (s : GenState) (x : List Char) (h : s.new_line = false) :
    write s x none = { s with result := s.result ++ [x] } := by
  simp [write, correct_line_number_none s h]

theorem write_newline_zero (s : GenState) (h0 : s.indentation = 0)
    (hne : s.result ≠ []) :
    write_newline s =
      { s with result := s.result ++ [['\n'], []], new_line := false } := by
  rw [write_newline]
  simp [h0, List.isEmpty_iff, hne]

theorem write_newline_of_empty (s : GenState) (h0 : s.indentation = 0)
    (he : s.result = []) :
    write_newline s = { s with result := [[]], new_line := false } := by
  rw [write_newline]
  simp [h0, he]

theorem nlFrags_zero : nlFrags 0 = [] := rfl

theorem nlFrags_succ (k : Nat) :
    nlFrags (k + 1) = ['\n'] :: ([] : List Char) :: nlFrags k := by
  simp [nlFrags, List.replicate_succ]

theorem nlFrags_flatten (k : Nat) :
    (nlFrags k).flatten = List.replicate k '\n' := by
  induction k with
  | zero => rfl
  | succ n ih => rw [nlFrags_succ, List.replicate_succ]; simp [ih]

theorem iterate_write_newline_zero (k : Nat) :
    ∀ s : GenState, s.indentation = 0 → s.new_line = false → s.result ≠ [] →
      write_newline^[k] s = { s with result := s.result ++ nlFrags k } := by
  induction k with
  | zero =>
    intro s _ _ _
    simp [nlFrags_zero]
  | succ n ih =>
    intro s h0 hn hne
    rw [Function.iterate_succ_apply]
    have hw : write_newline s = { s with result := s.result ++ [['\n'], []] } := by
      rw [write_newline_zero s h0 hne]
      cases s
      simp_all
    rw [hw, ih _ (by simp [h0]) (by simp [hn]) (by simp)]
    simp [nlFrags_succ]

theorem add_missing_lines_zero_indent (s : GenState) (L : Nat)
    (h0 : s.indentation = 0) (hn : s.new_line = false) (hne : s.result ≠ []) :
    add_missing_lines s L =
      { s with result := s.result ++ nlFrags (L - lines_in s) } := by
  rw [add_missing_lines]
  split
  · rename_i h
    have : L - lines_in s = 0 := by omega
    rw [this, nlFrags_zero]
    simp
  · have : ((L : Int) - (lines_in s : Int)).toNat = L - lines_in s := by omega
    rw [this, iterate_write_newline_zero _ s h0 hn hne]

/-- C8 helper: the no-op case of add_missing_lines. -/
theorem add_missing_lines_le (s : GenState) (L : Nat) (h : L ≤ lines_in s) :
    add_missing_lines s L = s := by
  rw [add_missing_lines]
  split
  · rfl
  · have : ((L : Int) - (lines_in s : Int)).toNat = 0 := by omega
    rw [this]
    rfl

theorem write_newline_extends_result (s : GenState) :
    s.result <+: (write_newline s).result := by
  rw [write_newline]
  by_cases h : s.result.isEmpty
  · simp only [if_pos h]
    rw [List.isEmpty_iff] at h
    simp [h]
  · simp only [if_neg h]
    rw [List.append_assoc]
    exact List.prefix_append _ _

theorem iterate_write_newline_extends (k : Nat) :
    ∀ s : GenState, s.result <+: (write_newline^[k] s).result := by
  induction k with
  | zero => intro s; simp
  | succ n ih =>
    intro s
    rw [Function.iterate_succ_apply]
    exact (write_newline_extends_result s).trans (ih (write_newline s))

/-- Claim C8: on non-monotonic line metadata (a visited node whose line
number is at most the number of output lines already produced), line
reconciliation does not fail and inserts no newline: add_missing_lines is
the identity there, and in general it only ever extends the buffer (the
number of emitted newlines is never negative). -/
theorem claim_C8 :
    (∀ (s : GenState) (L : Nat), L ≤ lines_in s → add_missing_lines s L = s) ∧
    (∀ (s : GenState) (L : Nat), s.result <+: (add_missing_lines s L).result) := by
  constructor
  · exact fun s L h => add_missing_lines_le s L h
  · intro s L
    rw [add_missing_lines]
    split
    · exact List.prefix_rfl
    · exact iterate_write_newline_extends _ s

/-- Witness for C8 at a concrete buffer: two output lines already present,
a node at line 1 inserts nothing. -/
theorem claim_C8_witness :
    1 ≤ lines_in { result := [['a'], ['\n'], ['b']], indent_with := "    ".data,
                   indentation := 0, new_line := false } ∧
      add_missing_lines { result := [['a'], ['\n'], ['b']], indent_with := "    ".data,
                          indentation := 0, new_line := false } 1 =
        { result := [['a'], ['\n'], ['b']], indent_with := "    ".data,
          indentation := 0, new_line := false } :=
  ⟨by decide, claim_C8.1 _ 1 (by decide)⟩

/-- Claim C7: an expression statement whose value is a bare string literal
is rendered by the docstring rule, as a triple-quoted literal write, never
through the generic expression-statement path (which would newline and
dispatch on the value). -/
theorem claim_C7 (v : PyVersion) (str : List Char) (ln : Option Nat)
    (s : GenState) :
    visitStmt v (Stmt.ExprStmt (Expr.Str str) ln) s =
      Except.ok (write s ("\"\"\"".data ++ str ++ "\"\"\"".data) none) := rfl

/-- Claim C10: an empty tuple renders as exactly the two parentheses, with
no trailing comma and no error, under every dialect. -/
theorem claim_C10 :
    ∀ v : PyVersion,
      to_source v [Stmt.ExprStmt (Expr.Tuple []) (some 1)] "    ".data =
        Except.ok "()".data := by
  decide

/-- Claim C1 counterexample: a YieldFrom expression statement rendered
under the Python 3.2 dialect, which has no rule for that kind, does not
fail at all: dispatch falls back to generic child visiting and the render
succeeds, producing just the child's text. -/
theorem claim_C1_counterexample :
    to_source PyVersion.py32
        [Stmt.ExprStmt (Expr.YieldFrom (Expr.Name "x".data none)) (some 1)]
        "    ".data = Except.ok "x".data ∧
      ∀ e : RenderError,
        to_source PyVersion.py32
          [Stmt.ExprStmt (Expr.YieldFrom (Expr.Name "x".data none)) (some 1)]
          "    ".data ≠ Except.error e := by
  decide

/-- Claim C1, amended: a node kind with no rendering rule in the selected
dialect is rendered by the generic child-visiting fallback, silently
degrading instead of failing (a YieldFrom under a dialect before 3.3
renders as just its child expression); under the introducing dialect and
every later one the node renders with its proper syntax. -/
theorem claim_C1 :
    ∀ v : PyVersion,
      (v.idx < PyVersion.py33.idx →
        to_source v
          [Stmt.ExprStmt (Expr.YieldFrom (Expr.Name "x".data none)) (some 1)]
          "    ".data = Except.ok "x".data) ∧
      (PyVersion.py33.idx ≤ v.idx →
        to_source v
          [Stmt.ExprStmt (Expr.YieldFrom (Expr.Name "x".data none)) (some 1)]
          "    ".data = Except.ok "yield from x".data) := by
  decide

/-- Witness for C1 at the versions on both sides of the introduction. -/
theorem claim_C1_witness :
    (PyVersion.py32.idx < PyVersion.py33.idx ∧
      to_source PyVersion.py32
        [Stmt.ExprStmt (Expr.YieldFrom (Expr.Name "x".data none)) (some 1)]
        "    ".data = Except.ok "x".data) ∧
    (PyVersion.py33.idx ≤ PyVersion.py33.idx ∧
      to_source PyVersion.py33
        [Stmt.ExprStmt (Expr.YieldFrom (Expr.Name "x".data none)) (some 1)]
        "    ".data = Except.ok "yield from x".data) :=
  ⟨⟨by decide, (claim_C1 PyVersion.py32).1 (by decide)⟩,
   ⟨by decide, (claim_C1 PyVersion.py33).2 (by decide)⟩⟩

/-- Claim C6 counterexample: the class node with one positional base and
one keyword base, rendered under the Python 2.7 dialect (which lacks
keyword-base support), does not fail: the base visit_ClassDef never reads
the keywords field, so the render succeeds and silently drops meta=M. -/
theorem claim_C6_counterexample :
    to_source PyVersion.py27
        [Stmt.ClassDef "C".data [Expr.Name "Base1".data none]
          (some [Keyword.mk (some "meta".data) (Expr.Name "M".data none)])
          [Stmt.Pass (some 2)] [] (some 1)]
        "    ".data = Except.ok "class C(Base1):\n    pass".data ∧
      ∀ e : RenderError,
        to_source PyVersion.py27
          [Stmt.ClassDef "C".data [Expr.Name "Base1".data none]
            (some [Keyword.mk (some "meta".data) (Expr.Name "M".data none)])
            [Stmt.Pass (some 2)] [] (some 1)]
          "    ".data ≠ Except.error e := by
  decide

/-- Claim C6, amended: the class node with positional base Base1 and
keyword base meta=M renders as class C(Base1, meta=M): under the dialect
that supports keyword base arguments (Python 3.0) and every later one;
under every earlier dialect the render also succeeds, producing
class C(Base1): with the keyword base silently ignored rather than
failing. -/
theorem claim_C6 :
    ∀ v : PyVersion,
      (PyVersion.py30.idx ≤ v.idx →
        to_source v
          [Stmt.ClassDef "C".data [Expr.Name "Base1".data none]
            (some [Keyword.mk (some "meta".data) (Expr.Name "M".data none)])
            [Stmt.Pass (some 2)] [] (some 1)]
          "    ".data = Except.ok "class C(Base1, meta=M):\n    pass".data) ∧
      (v.idx < PyVersion.py30.idx →
        to_source v
          [Stmt.ClassDef "C".data [Expr.Name "Base1".data none]
            (some [Keyword.mk (some "meta".data) (Expr.Name "M".data none)])
            [Stmt.Pass (some 2)] [] (some 1)]
          "    ".data = Except.ok "class C(Base1):\n    pass".data) := by
  decide

/-- Witness for C6 at the versions on both sides of the feature. -/
theorem claim_C6_witness :
    (PyVersion.py30.idx ≤ PyVersion.py30.idx ∧
      to_source PyVersion.py30
        [Stmt.ClassDef "C".data [Expr.Name "Base1".data none]
          (some [Keyword.mk (some "meta".data) (Expr.Name "M".data none)])
          [Stmt.Pass (some 2)] [] (some 1)]
        "    ".data = Except.ok "class C(Base1, meta=M):\n    pass".data) ∧
    (PyVersion.py27.idx < PyVersion.py30.idx ∧
      to_source PyVersion.py27
        [Stmt.ClassDef "C".data [Expr.Name "Base1".data none]
          (some [Keyword.mk (some "meta".data) (Expr.Name "M".data none)])
          [Stmt.Pass (some 2)] [] (some 1)]
        "    ".data = Except.ok "class C(Base1):\n    pass".data) :=
  ⟨⟨by decide, (claim_C6 PyVersion.py30).1 (by decide)⟩,
   ⟨by decide, (claim_C6 PyVersion.py27).2 (by decide)⟩⟩

/-- Claim C5: every binary, boolean, comparison and unary construct takes
its operator token from the corresponding symbol table, and a construct
whose operator kind has no entry (ast.MatMult in BINOP_SYMBOLS) fails with
UnsupportedOperator when rendered; the tables themselves are constructed
fine with the entry missing, so the failure is at render time only. -/
theorem claim_C5 :
    ∀ v : PyVersion,
      BINOP_SYMBOLS BinOpKind.MatMult = none ∧
      (∀ op : BinOpKind,
        match BINOP_SYMBOLS op with
        | some t =>
          visitExpr v
              (Expr.BinOp (Expr.Name "a".data none) op (Expr.Name "b".data none))
              (initState "    ".data) =
            Except.ok { initState "    ".data with
                        result := ["a".data, ' ' :: (t ++ [' ']), "b".data] }
        | none =>
          visitExpr v
              (Expr.BinOp (Expr.Name "a".data none) op (Expr.Name "b".data none))
              (initState "    ".data) =
            Except.error RenderError.unsupportedOperator) ∧
      (∀ op : BoolOpKind,
        match BOOLOP_SYMBOLS op with
        | some t =>
          visitExpr v
              (Expr.BoolOp op [Expr.Name "a".data none, Expr.Name "b".data none])
              (initState "    ".data) =
            Except.ok { initState "    ".data with
                        result := ["(".data, "a".data, ' ' :: (t ++ [' ']),
                                   "b".data, ")".data] }
        | none =>
          visitExpr v
              (Expr.BoolOp op [Expr.Name "a".data none, Expr.Name "b".data none])
              (initState "    ".data) =
            Except.error RenderError.unsupportedOperator) ∧
      (∀ op : CmpOpKind,
        match CMPOP_SYMBOLS op with
        | some t =>
          visitExpr v
              (Expr.Compare (Expr.Name "a".data none) [op]
                [Expr.Name "b".data none])
              (initState "    ".data) =
            Except.ok { initState "    ".data with
                        result := ["a".data, ' ' :: (t ++ [' ']), "b".data] }
        | none =>
          visitExpr v
              (Expr.Compare (Expr.Name "a".data none) [op]
                [Expr.Name "b".data none])
              (initState "    ".data) =
            Except.error RenderError.unsupportedOperator) ∧
      (∀ op : UnaryOpKind,
        match UNARYOP_SYMBOLS op with
        | some t =>
          visitExpr v (Expr.UnaryOp op (Expr.Name "a".data none))
              (initState "    ".data) =
            Except.ok { initState "    ".data with
                        result := ["(".data, t] ++
                          (if t = "not".data then [" ".data] else []) ++
                          ["a".data, ")".data] }
        | none =>
          visitExpr v (Expr.UnaryOp op (Expr.Name "a".data none))
              (initState "    ".data) =
            Except.error RenderError.unsupportedOperator) := by
  intro v
  refine ⟨rfl, fun op => ?_, fun op => ?_, fun op => ?_, fun op => ?_⟩ <;>
    cases op <;> rfl

theorem exc_bind_ok {α β : Type} (a : α) (f : α → Except RenderError β) :
    (Except.ok a : Except RenderError α) >>= f = f a := rfl

theorem flatten_append_one (R : List (List Char)) (x : List Char) :
    (R ++ [x]).flatten = R.flatten ++ x := by
  simp

theorem withCommas_nil (wc : Bool) : withCommas wc [] = [] := rfl

theorem withCommas_cons (wc : Bool) (t : List Char) (ts : List (List Char)) :
    withCommas wc (t :: ts) =
      (if wc then ", ".data else []) ++ t ++ withCommas true ts := rfl

theorem withCommas_append (ts us : List (List Char)) :
    ∀ wc : Bool,
      withCommas wc (ts ++ us) =
        withCommas wc ts ++ withCommas (wc || !ts.isEmpty) us := by
  induction ts with
  | nil => intro wc; simp [withCommas_nil]
  | cons t ts ih =>
    intro wc
    rw [List.cons_append, withCommas_cons, ih true, withCommas_cons]
    simp [List.append_assoc]

theorem withCommas_false_intercalate (ts : List (List Char)) :
    withCommas false ts = List.intercalate ", ".data ts := by
  induction ts with
  | nil => rfl
  | cons t us ih =>
    cases us with
    | nil => simp [withCommas, List.intercalate, List.intersperse]
    | cons u vs =>
      have h1 : withCommas true (u :: vs) = ", ".data ++ withCommas false (u :: vs) := by
        rw [withCommas_cons, withCommas_cons]
        simp [List.append_assoc]
      rw [withCommas_cons, h1, ih, List.intercalate, List.intercalate,
        List.intersperse_cons_cons, List.flatten_cons, List.flatten_cons]
      simp [List.append_assoc]

theorem rendersInline_name (v : PyVersion) (x : List Char) :
    RendersInline v (Expr.Name x none) x := by
  intro s h
  refine ⟨s.result ++ [x], ?_, ?_⟩
  · show Except.ok (write s x none) = _
    rw [write_none_clean s x h]
  · exact flatten_append_one _ _

theorem rendersInline_starred (v : PyVersion) (e : Expr) (t : List Char)
    (h : RendersInline v e t) :
    RendersInline v (Expr.Starred e) ('*' :: t) := by
  intro s hs
  have hw : write s "*".data none = { s with result := s.result ++ ["*".data] } :=
    write_none_clean s _ hs
  obtain ⟨r, hr, hf⟩ := h { s with result := s.result ++ ["*".data] } (by simp [hs])
  refine ⟨r, ?_, ?_⟩
  · show visitExpr v e (write s "*".data none) = _
    rw [hw, hr]
  · rw [hf]
    simp [List.append_assoc]

theorem rendersKwInline_named (v : PyVersion) (a : List Char) (e : Expr)
    (t : List Char) (h : RendersInline v e t) :
    RendersKwInline v (Keyword.mk (some a) e) (a ++ "=".data ++ t) := by
  intro s hs
  have hw : write s (a ++ "=".data) none =
      { s with result := s.result ++ [a ++ "=".data] } :=
    write_none_clean s _ hs
  obtain ⟨r, hr, hf⟩ := h { s with result := s.result ++ [a ++ "=".data] } (by simp [hs])
  refine ⟨r, ?_, ?_⟩
  · show visitExpr v e (write s (a ++ "=".data) none) = _
    rw [hw, hr]
  · rw [hf]
    simp [List.append_assoc]

theorem rendersKwInline_nameless (v : PyVersion) (e : Expr) (t : List Char)
    (h : RendersInline v e t) :
    RendersKwInline v (Keyword.mk none e) ("**".data ++ t) := by
  intro s hs
  have hw : write s "**".data none = { s with result := s.result ++ ["**".data] } :=
    write_none_clean s _ hs
  obtain ⟨r, hr, hf⟩ := h { s with result := s.result ++ ["**".data] } (by simp [hs])
  refine ⟨r, ?_, ?_⟩
  · show visitExpr v e (write s "**".data none) = _
    rw [hw, hr]
  · rw [hf]
    simp [List.append_assoc]

theorem tupleLoop_spec (v : PyVersion) :
    ∀ (ps : List (Expr × List Char)) (idx : Nat) (s : GenState),
      s.new_line = false →
      (∀ p ∈ ps, RendersInline v p.1 p.2) →
      ∃ r, tupleLoop v (ps.map Prod.fst) idx s = .ok { s with result := r } ∧
        r.flatten = s.result.flatten ++
          withCommas (if idx = 0 then false else true) (ps.map Prod.snd) := by
  intro ps
  induction ps with
  | nil =>
    intro idx s hs _
    exact ⟨s.result, rfl, by simp [withCommas_nil]⟩
  | cons p ps ih =>
    intro idx s hs hr
    have hp : RendersInline v p.1 p.2 := hr p (by simp)
    by_cases hidx : idx = 0
    · subst hidx
      obtain ⟨r1, hr1, hf1⟩ := hp s hs
      obtain ⟨r2, hr2, hf2⟩ :=
        ih 1 { s with result := r1 } (by simp [hs]) (fun q hq => hr q (by simp [hq]))
      refine ⟨r2, ?_, ?_⟩
      · simp only [List.map_cons, tupleLoop, if_neg (by simp : ¬(0 : Nat) ≠ 0)]
        rw [hr1, exc_bind_ok, hr2]
      · rw [hf2]
        simp only [hf1]
        rw [List.map_cons, withCommas_cons]
        simp [List.append_assoc]
    · have hcomma : write s ", ".data none = { s with result := s.result ++ [", ".data] } :=
        write_none_clean s _ hs
      obtain ⟨r1, hr1, hf1⟩ :=
        hp { s with result := s.result ++ [", ".data] } (by simp [hs])
      obtain ⟨r2, hr2, hf2⟩ :=
        ih (idx + 1) { s with result := r1 } (by simp [hs])
          (fun q hq => hr q (by simp [hq]))
      refine ⟨r2, ?_, ?_⟩
      · simp only [List.map_cons, tupleLoop, if_pos hidx]
        rw [hcomma]
        dsimp only at hr1 hr2 ⊢
        rw [hr1, exc_bind_ok]
        exact hr2
      · rw [hf2]
        dsimp only at hf1
        simp only [hf1]
        rw [List.map_cons, withCommas_cons]
        simp [hidx, List.append_assoc]

/-- Claim C9: a tuple with exactly one element renders with a trailing
comma before the closing parenthesis, while a tuple with two or more
elements renders its elements comma-separated with no trailing comma:
for elementwise-renderable elements the tuple output is an opening
parenthesis, the comma-separated element texts, and then a trailing-comma
close exactly when the element count is one. -/
theorem claim_C9 (v : PyVersion) (s : GenState) (es : List (Expr × List Char))
    (hs : s.new_line = false)
    (hr : ∀ p ∈ es, RendersInline v p.1 p.2) :
    ∃ r, visitExpr v (Expr.Tuple (es.map Prod.fst)) s = .ok { s with result := r } ∧
      r.flatten = s.result.flatten ++ "(".data ++
        List.intercalate ", ".data (es.map Prod.snd) ++
        (if es.length = 1 then ",)".data else ")".data) := by
  have hopen : write s "(".data none = { s with result := s.result ++ ["(".data] } :=
    write_none_clean s _ hs
  obtain ⟨r1, hr1, hf1⟩ :=
    tupleLoop_spec v es 0 { s with result := s.result ++ ["(".data] } (by simp [hs]) hr
  dsimp only at hr1 hf1
  rw [if_pos rfl, withCommas_false_intercalate, flatten_append_one] at hf1
  have hlen : ((((es.map Prod.fst)).length : Int) - 1 = 0) ↔ es.length = 1 := by
    rw [List.length_map]
    omega
  refine ⟨r1 ++ [if es.length = 1 then ",)".data else ")".data], ?_, ?_⟩
  · simp only [visitExpr]
    rw [hopen, hr1, exc_bind_ok]
    have hclean : ({ s with result := r1 } : GenState).new_line = false := by
      simp [hs]
    rw [write_none_clean _ _ hclean]
    by_cases h1 : es.length = 1
    · rw [if_pos (hlen.mpr h1), if_pos h1]
    · rw [if_neg (fun c => h1 (hlen.mp c)), if_neg h1]
  · rw [flatten_append_one, hf1]

/-- Witness for C9: a one-element tuple renders as a parenthesized element
with a trailing comma, and a two-element tuple with none. -/
theorem claim_C9_witness :
    (∃ r, visitExpr PyVersion.py26
        (Expr.Tuple [Expr.Name "x".data none]) (initState "    ".data) =
          .ok { initState "    ".data with result := r } ∧
        r.flatten = "(x,)".data) ∧
    (∃ r, visitExpr PyVersion.py26
        (Expr.Tuple [Expr.Name "x".data none, Expr.Name "y".data none])
          (initState "    ".data) =
          .ok { initState "    ".data with result := r } ∧
        r.flatten = "(x, y)".data) := by
  constructor
  · exact claim_C9 PyVersion.py26 (initState "    ".data)
      [(Expr.Name "x".data none, "x".data)] rfl
      (by
        intro p hp
        simp only [List.mem_singleton] at hp
        subst hp
        exact rendersInline_name _ _)
  · exact claim_C9 PyVersion.py26 (initState "    ".data)
      [(Expr.Name "x".data none, "x".data), (Expr.Name "y".data none, "y".data)] rfl
      (by
        intro p hp
        simp only [List.mem_cons, List.not_mem_nil, or_false] at hp
        rcases hp with h | h <;> subst h <;> exact rendersInline_name _ _)

theorem comma_if (s : GenState) (wc : Bool) (h : s.new_line = false) :
    (if wc then write s ", ".data none else s) =
      { s with result := s.result ++ (if wc then [", ".data] else []) } := by
  cases wc
  · simp
  · simp [write_none_clean s _ h]

theorem callArgsLoop_spec (v : PyVersion) (skip : Expr → Bool) :
    ∀ (ps : List (Expr × List Char)) (wc : Bool) (s : GenState),
      s.new_line = false →
      (∀ p ∈ ps, RendersInline v p.1 p.2) →
      ∃ r, callArgsLoop v skip (ps.map Prod.fst) wc s =
          .ok ({ s with result := r },
            wc || !(((ps.filter (fun p => !skip p.1)).map Prod.snd).isEmpty)) ∧
        r.flatten = s.result.flatten ++
          withCommas wc ((ps.filter (fun p => !skip p.1)).map Prod.snd) := by
  intro ps
  induction ps with
  | nil =>
    intro wc s hs _
    refine ⟨s.result, ?_, by simp [withCommas_nil]⟩
    simp [callArgsLoop]
  | cons p ps ih =>
    intro wc s hs hr
    have hp : RendersInline v p.1 p.2 := hr p (by simp)
    by_cases hsk : skip p.1 = true
    · obtain ⟨r1, hr1, hf1⟩ := ih wc s hs (fun q hq => hr q (by simp [hq]))
      refine ⟨r1, ?_, ?_⟩
      · simp only [List.map_cons, callArgsLoop, if_pos hsk]
        rw [hr1]
        simp [List.filter_cons, hsk]
      · rw [hf1]
        simp [List.filter_cons, hsk]
    · have hsk' : skip p.1 = false := by
        cases h : skip p.1
        · rfl
        · exact absurd h hsk
      have hcomma := comma_if s wc hs
      obtain ⟨r1, hr1, hf1⟩ :=
        hp { s with result := s.result ++ (if wc then [", ".data] else []) }
          (by simp [hs])
      obtain ⟨r2, hr2, hf2⟩ :=
        ih true { s with result := r1 } (by simp [hs])
          (fun q hq => hr q (by simp [hq]))
      refine ⟨r2, ?_, ?_⟩
      · simp only [List.map_cons, callArgsLoop, hsk', Bool.false_eq_true, if_false]
        rw [hcomma]
        dsimp only at hr1 hr2 ⊢
        rw [hr1, exc_bind_ok, hr2]
        simp [List.filter_cons, hsk']
      · rw [hf2]
        dsimp only at hf1
        rw [hf1]
        cases wc <;>
          simp [List.filter_cons, hsk', List.map_cons, withCommas_cons,
            List.append_assoc]

theorem callKwLoop_spec (v : PyVersion) (skip : Keyword → Bool) :
    ∀ (ps : List (Keyword × List Char)) (wc : Bool) (s : GenState),
      s.new_line = false →
      (∀ p ∈ ps, RendersKwInline v p.1 p.2) →
      ∃ r, callKwLoop v skip (ps.map Prod.fst) wc s =
          .ok ({ s with result := r },
            wc || !(((ps.filter (fun p => !skip p.1)).map Prod.snd).isEmpty)) ∧
        r.flatten = s.result.flatten ++
          withCommas wc ((ps.filter (fun p => !skip p.1)).map Prod.snd) := by
  intro ps
  induction ps with
  | nil =>
    intro wc s hs _
    refine ⟨s.result, ?_, by simp [withCommas_nil]⟩
    simp [callKwLoop]
  | cons p ps ih =>
    intro wc s hs hr
    have hp : RendersKwInline v p.1 p.2 := hr p (by simp)
    by_cases hsk : skip p.1 = true
    · obtain ⟨r1, hr1, hf1⟩ := ih wc s hs (fun q hq => hr q (by simp [hq]))
      refine ⟨r1, ?_, ?_⟩
      · simp only [List.map_cons, callKwLoop, if_pos hsk]
        rw [hr1]
        simp [List.filter_cons, hsk]
      · rw [hf1]
        simp [List.filter_cons, hsk]
    · have hsk' : skip p.1 = false := by
        cases h : skip p.1
        · rfl
        · exact absurd h hsk
      have hcomma := comma_if s wc hs
      obtain ⟨r1, hr1, hf1⟩ :=
        hp { s with result := s.result ++ (if wc then [", ".data] else []) }
          (by simp [hs])
      obtain ⟨r2, hr2, hf2⟩ :=
        ih true { s with result := r1 } (by simp [hs])
          (fun q hq => hr q (by simp [hq]))
      refine ⟨r2, ?_, ?_⟩
      · simp only [List.map_cons, callKwLoop, hsk', Bool.false_eq_true, if_false]
        rw [hcomma]
        dsimp only at hr1 hr2 ⊢
        rw [hr1, exc_bind_ok, hr2]
        simp [List.filter_cons, hsk']
      · rw [hf2]
        dsimp only at hf1
        rw [hf1]
        cases wc <;>
          simp [List.filter_cons, hsk', List.map_cons, withCommas_cons,
            List.append_assoc]

theorem starargsWrite_spec (v : PyVersion) (o : Option (Expr × List Char))
    (wc : Bool) (s : GenState) (hs : s.new_line = false)
    (ho : ∀ p ∈ o.toList, RendersInline v p.1 p.2) :
    ∃ r, starargsWrite v (o.map Prod.fst) wc s =
        .ok ({ s with result := r },
          wc || !(((o.map (fun p => '*' :: p.2)).toList).isEmpty)) ∧
      r.flatten = s.result.flatten ++
        withCommas wc ((o.map (fun p => '*' :: p.2)).toList) := by
  cases o with
  | none =>
    refine ⟨s.result, ?_, by simp [withCommas_nil]⟩
    simp [starargsWrite]
  | some p =>
    have hp : RendersInline v p.1 p.2 := ho p (by simp)
    have hcomma := comma_if s wc hs
    have hstar :
        write { s with result := s.result ++ (if wc then [", ".data] else []) }
            "*".data none =
          { s with result := (s.result ++ (if wc then [", ".data] else [])) ++
              ["*".data] } := by
      rw [write_none_clean _ _ (by simp [hs])]
    obtain ⟨r1, hr1, hf1⟩ :=
      hp { s with result := (s.result ++ (if wc then [", ".data] else [])) ++
            ["*".data] } (by simp [hs])
    refine ⟨r1, ?_, ?_⟩
    · show (do
          let s3 ← visitExpr v p.1
            (write (if wc then write s ", ".data none else s) "*".data none)
          Except.ok (s3, true)) = _
      rw [hcomma, hstar, hr1, exc_bind_ok]
      cases wc <;> rfl
    · dsimp only at hf1
      rw [hf1]
      cases wc <;> simp [withCommas_cons, withCommas_nil, List.append_assoc]

theorem kwargsWrite_spec (v : PyVersion) (o : Option (Expr × List Char))
    (wc : Bool) (s : GenState) (hs : s.new_line = false)
    (ho : ∀ p ∈ o.toList, RendersInline v p.1 p.2) :
    ∃ r, kwargsWrite v (o.map Prod.fst) wc s =
        .ok ({ s with result := r },
          wc || !(((o.map (fun p => '*' :: '*' :: p.2)).toList).isEmpty)) ∧
      r.flatten = s.result.flatten ++
        withCommas wc ((o.map (fun p => '*' :: '*' :: p.2)).toList) := by
  cases o with
  | none =>
    refine ⟨s.result, ?_, by simp [withCommas_nil]⟩
    simp [kwargsWrite]
  | some p =>
    have hp : RendersInline v p.1 p.2 := ho p (by simp)
    have hcomma := comma_if s wc hs
    have hstar :
        write { s with result := s.result ++ (if wc then [", ".data] else []) }
            "**".data none =
          { s with result := (s.result ++ (if wc then [", ".data] else [])) ++
              ["**".data] } := by
      rw [write_none_clean _ _ (by simp [hs])]
    obtain ⟨r1, hr1, hf1⟩ :=
      hp { s with result := (s.result ++ (if wc then [", ".data] else [])) ++
            ["**".data] } (by simp [hs])
    refine ⟨r1, ?_, ?_⟩
    · show (do
          let s3 ← visitExpr v p.1
            (write (if wc then write s ", ".data none else s) "**".data none)
          Except.ok (s3, true)) = _
      rw [hcomma, hstar, hr1, exc_bind_ok]
      cases wc <;> rfl
    · dsimp only at hf1
      rw [hf1]
      cases wc <;> simp [withCommas_cons, withCommas_nil, List.append_assoc]

theorem call_signature_spec35 (v : PyVersion) (hv : PyVersion.py35.idx ≤ v.idx)
    (args : List (Expr × List Char)) (kws : List (Keyword × List Char))
    (s : GenState) (hs : s.new_line = false)
    (hargs : ∀ p ∈ args, RendersInline v p.1 p.2)
    (hkws : ∀ p ∈ kws, RendersKwInline v p.1 p.2) :
    ∃ r, call_signature v (args.map Prod.fst) (kws.map Prod.fst) none none s =
        .ok { s with result := r } ∧
      r.flatten = s.result.flatten ++
        withCommas false
          ((args.filter (fun p => !isStarred p.1)).map Prod.snd ++
           ((kws.filter (fun p => kwTruthy p.1)).map Prod.snd ++
            ((args.filter (fun p => isStarred p.1)).map Prod.snd ++
             (kws.filter (fun p => !kwTruthy p.1)).map Prod.snd))) := by
  obtain ⟨r1, h1, f1⟩ :=
    callArgsLoop_spec v (fun a => isStarred a) args false s hs hargs
  obtain ⟨r2, h2, f2⟩ :=
    callKwLoop_spec v (fun k => !kwTruthy k) kws
      (false || !((args.filter (fun p => !(fun a => isStarred a) p.1)).map Prod.snd).isEmpty)
      { s with result := r1 } (by simp [hs]) hkws
  obtain ⟨r3, h3, f3⟩ :=
    callArgsLoop_spec v (fun a => !isStarred a) args
      ((false || !((args.filter (fun p => !(fun a => isStarred a) p.1)).map Prod.snd).isEmpty) ||
        !((kws.filter (fun p => !(fun k => !kwTruthy k) p.1)).map Prod.snd).isEmpty)
      { s with result := r2 } (by simp [hs]) hargs
  obtain ⟨r4, h4, f4⟩ :=
    callKwLoop_spec v (fun k => kwTruthy k) kws
      (((false || !((args.filter (fun p => !(fun a => isStarred a) p.1)).map Prod.snd).isEmpty) ||
        !((kws.filter (fun p => !(fun k => !kwTruthy k) p.1)).map Prod.snd).isEmpty) ||
        !((args.filter (fun p => !(fun a => !isStarred a) p.1)).map Prod.snd).isEmpty)
      { s with result := r3 } (by simp [hs]) hkws
  dsimp only at h1 h2 h3 h4 f1 f2 f3 f4
  refine ⟨r4, ?_, ?_⟩
  · rw [call_signature, if_pos hv]
    rw [h1, exc_bind_ok]
    dsimp only
    rw [h2, exc_bind_ok]
    dsimp only
    rw [h3, exc_bind_ok]
    dsimp only
    rw [h4, exc_bind_ok]
  · rw [f4, f3, f2, f1]
    rw [withCommas_append, withCommas_append, withCommas_append]
    simp only [Bool.not_not, List.append_assoc]

theorem call_signature_spec_base (v : PyVersion)
    (args : List (Expr × List Char)) (kws : List (Keyword × List Char))
    (sa kw : Option (Expr × List Char))
    (s : GenState) (hs : s.new_line = false)
    (hargs : ∀ p ∈ args, RendersInline v p.1 p.2)
    (hkws : ∀ p ∈ kws, RendersKwInline v p.1 p.2)
    (hsa : ∀ p ∈ sa.toList, RendersInline v p.1 p.2)
    (hkw : ∀ p ∈ kw.toList, RendersInline v p.1 p.2)
    (hv : v.idx < PyVersion.py35.idx) :
    ∃ r, call_signature v (args.map Prod.fst) (kws.map Prod.fst)
        (sa.map Prod.fst) (kw.map Prod.fst) s =
        .ok { s with result := r } ∧
      r.flatten = s.result.flatten ++
        withCommas false
          (args.map Prod.snd ++
           (kws.map Prod.snd ++
            ((sa.map (fun p => '*' :: p.2)).toList ++
             (kw.map (fun p => '*' :: '*' :: p.2)).toList))) := by
  obtain ⟨r1, h1, f1⟩ :=
    callArgsLoop_spec v (fun _ => false) args false s hs hargs
  obtain ⟨r2, h2, f2⟩ :=
    callKwLoop_spec v (fun _ => false) kws
      (false || !((args.filter (fun p => !(fun _ : Expr => false) p.1)).map Prod.snd).isEmpty)
      { s with result := r1 } (by simp [hs]) hkws
  obtain ⟨r3, h3, f3⟩ :=
    starargsWrite_spec v sa
      ((false || !((args.filter (fun p => !(fun _ : Expr => false) p.1)).map Prod.snd).isEmpty) ||
        !((kws.filter (fun p => !(fun _ : Keyword => false) p.1)).map Prod.snd).isEmpty)
      { s with result := r2 } (by simp [hs]) hsa
  obtain ⟨r4, h4, f4⟩ :=
    kwargsWrite_spec v kw
      (((false || !((args.filter (fun p => !(fun _ : Expr => false) p.1)).map Prod.snd).isEmpty) ||
        !((kws.filter (fun p => !(fun _ : Keyword => false) p.1)).map Prod.snd).isEmpty) ||
        !((sa.map (fun p => '*' :: p.2)).toList).isEmpty)
      { s with result := r3 } (by simp [hs]) hkw
  dsimp only at h1 h2 h3 h4 f1 f2 f3 f4
  refine ⟨r4, ?_, ?_⟩
  · rw [call_signature, if_neg (by omega)]
    rw [h1, exc_bind_ok]
    dsimp only
    rw [h2, exc_bind_ok]
    dsimp only
    rw [h3, exc_bind_ok]
    dsimp only
    rw [h4, exc_bind_ok]
  · rw [f4, f3, f2, f1]
    rw [withCommas_append, withCommas_append, withCommas_append]
    simp only [List.append_assoc, List.filter_true]
    simp

/-- Claim C3: under the dialect that defers spreads (Python 3.5) and every
later one, call_signature emits the non-starred positional arguments, then
the keywords with an explicit name, then the starred positional spreads,
then the nameless keyword spreads, comma-separated; under every earlier
dialect it instead emits the positional arguments, then all keywords, then
the starargs spread, then the kwargs spread. -/
theorem claim_C3 (v : PyVersion) (s : GenState)
    (args : List (Expr × List Char)) (kws : List (Keyword × List Char))
    (sa kw : Option (Expr × List Char))
    (hs : s.new_line = false)
    (hargs : ∀ p ∈ args, RendersInline v p.1 p.2)
    (hkws : ∀ p ∈ kws, RendersKwInline v p.1 p.2)
    (hsa : ∀ p ∈ sa.toList, RendersInline v p.1 p.2)
    (hkw : ∀ p ∈ kw.toList, RendersInline v p.1 p.2) :
    (PyVersion.py35.idx ≤ v.idx →
      ∃ r, call_signature v (args.map Prod.fst) (kws.map Prod.fst) none none s =
          .ok { s with result := r } ∧
        r.flatten = s.result.flatten ++
          List.intercalate ", ".data
            ((args.filter (fun p => !isStarred p.1)).map Prod.snd ++
             ((kws.filter (fun p => kwTruthy p.1)).map Prod.snd ++
              ((args.filter (fun p => isStarred p.1)).map Prod.snd ++
               (kws.filter (fun p => !kwTruthy p.1)).map Prod.snd)))) ∧
    (v.idx < PyVersion.py35.idx →
      ∃ r, call_signature v (args.map Prod.fst) (kws.map Prod.fst)
          (sa.map Prod.fst) (kw.map Prod.fst) s =
          .ok { s with result := r } ∧
        r.flatten = s.result.flatten ++
          List.intercalate ", ".data
            (args.map Prod.snd ++
             (kws.map Prod.snd ++
              ((sa.map (fun p => '*' :: p.2)).toList ++
               (kw.map (fun p => '*' :: '*' :: p.2)).toList)))) := by
  constructor
  · intro hv
    obtain ⟨r, h, f⟩ := call_signature_spec35 v hv args kws s hs hargs hkws
    exact ⟨r, h, by rw [f, withCommas_false_intercalate]⟩
  · intro hv
    obtain ⟨r, h, f⟩ :=
      call_signature_spec_base v args kws sa kw s hs hargs hkws hsa hkw hv
    exact ⟨r, h, by rw [f, withCommas_false_intercalate]⟩

/-- Witness for C3: the call f(a, *s, k=kv, **d) with a py3.5-shaped node
under Python 3.5 (spreads deferred to the end) and an old-shape node with
starargs and kwargs fields under Python 2.7 (spreads from the fields at
the end). -/
theorem claim_C3_witness :
    (PyVersion.py35.idx ≤ PyVersion.py35.idx ∧
      ∃ r, call_signature PyVersion.py35
          [Expr.Name "a".data none, Expr.Starred (Expr.Name "s".data none)]
          [Keyword.mk (some "k".data) (Expr.Name "kv".data none),
           Keyword.mk none (Expr.Name "d".data none)]
          none none (initState "    ".data) =
          .ok { initState "    ".data with result := r } ∧
        r.flatten = "a, k=kv, *s, **d".data) ∧
    (PyVersion.py27.idx < PyVersion.py35.idx ∧
      ∃ r, call_signature PyVersion.py27
          [Expr.Name "a".data none]
          [Keyword.mk (some "k".data) (Expr.Name "kv".data none)]
          (some (Expr.Name "s".data none)) (some (Expr.Name "d".data none))
          (initState "    ".data) =
          .ok { initState "    ".data with result := r } ∧
        r.flatten = "a, k=kv, *s, **d".data) := by
  have hargs35 :
      ∀ p ∈ [((Expr.Name "a".data none : Expr), "a".data),
             (Expr.Starred (Expr.Name "s".data none), "*s".data)],
        RendersInline PyVersion.py35 p.1 p.2 := by
    intro p hp
    simp only [List.mem_cons, List.not_mem_nil, or_false] at hp
    rcases hp with h | h <;> subst h
    · exact rendersInline_name _ _
    · exact rendersInline_starred _ _ _ (rendersInline_name _ _)
  have hkws35 :
      ∀ p ∈ [((Keyword.mk (some "k".data) (Expr.Name "kv".data none) : Keyword),
              "k=kv".data),
             (Keyword.mk none (Expr.Name "d".data none), "**d".data)],
        RendersKwInline PyVersion.py35 p.1 p.2 := by
    intro p hp
    simp only [List.mem_cons, List.not_mem_nil, or_false] at hp
    rcases hp with h | h <;> subst h
    · exact rendersKwInline_named _ _ _ _ (rendersInline_name _ _)
    · exact rendersKwInline_nameless _ _ _ (rendersInline_name _ _)
  have hargs27 :
      ∀ p ∈ [((Expr.Name "a".data none : Expr), "a".data)],
        RendersInline PyVersion.py27 p.1 p.2 := by
    intro p hp
    simp only [List.mem_singleton] at hp
    subst hp
    exact rendersInline_name _ _
  have hkws27 :
      ∀ p ∈ [((Keyword.mk (some "k".data) (Expr.Name "kv".data none) : Keyword),
              "k=kv".data)],
        RendersKwInline PyVersion.py27 p.1 p.2 := by
    intro p hp
    simp only [List.mem_singleton] at hp
    subst hp
    exact rendersKwInline_named _ _ _ _ (rendersInline_name _ _)
  have hsa27 :
      ∀ p ∈ (some ((Expr.Name "s".data none : Expr), "s".data)).toList,
        RendersInline PyVersion.py27 p.1 p.2 := by
    intro p hp
    simp only [Option.toList_some, List.mem_singleton] at hp
    subst hp
    exact rendersInline_name _ _
  have hkw27 :
      ∀ p ∈ (some ((Expr.Name "d".data none : Expr), "d".data)).toList,
        RendersInline PyVersion.py27 p.1 p.2 := by
    intro p hp
    simp only [Option.toList_some, List.mem_singleton] at hp
    subst hp
    exact rendersInline_name _ _
  constructor
  · exact ⟨by decide,
      (claim_C3 PyVersion.py35 (initState "    ".data)
          [((Expr.Name "a".data none : Expr), "a".data),
           (Expr.Starred (Expr.Name "s".data none), "*s".data)]
          [((Keyword.mk (some "k".data) (Expr.Name "kv".data none) : Keyword),
            "k=kv".data),
           (Keyword.mk none (Expr.Name "d".data none), "**d".data)]
          none none rfl hargs35 hkws35 (by simp) (by simp)).1 (by decide)⟩
  · exact ⟨by decide,
      (claim_C3 PyVersion.py27 (initState "    ".data)
          [((Expr.Name "a".data none : Expr), "a".data)]
          [((Keyword.mk (some "k".data) (Expr.Name "kv".data none) : Keyword),
            "k=kv".data)]
          (some ((Expr.Name "s".data none : Expr), "s".data))
          (some ((Expr.Name "d".data none : Expr), "d".data))
          rfl hargs27 hkws27 hsa27 hkw27).2 (by decide)⟩

theorem rendersInline_num (v : PyVersion) (n : Int) :
    RendersInline v (Expr.Num n) (toString n).data := by
  intro s h
  refine ⟨s.result ++ [(toString n).data], ?_, ?_⟩
  · show Except.ok (write s (toString n).data none) = _
    rw [write_none_clean s _ h]
  · exact flatten_append_one _ _

theorem signature_arg_spec_none (v : PyVersion) (n : List Char) (wc : Bool)
    (s : GenState) (hs : s.new_line = false) :
    signature_arg v (Arg.mk n none) none wc s =
      .ok ({ s with result := (s.result ++ (if wc then [", ".data] else [])) ++ [n] },
        true) := by
  rw [signature_arg]
  rw [comma_if s wc hs]
  have h2 : write { s with result := s.result ++ (if wc then [", ".data] else []) }
      (Arg.mk n none).argName none =
      { s with result := (s.result ++ (if wc then [", ".data] else [])) ++ [n] } := by
    rw [write_none_clean _ _ (by simp [hs])]
    simp [Arg.argName]
  rw [h2]
  by_cases hver : PyVersion.py30.idx ≤ v.idx <;>
    simp [hver, Arg.argAnnotation, exc_bind_ok]

theorem signature_arg_spec_some (v : PyVersion) (n : List Char) (d : Expr)
    (t : List Char) (hd : RendersInline v d t) (wc : Bool)
    (s : GenState) (hs : s.new_line = false) :
    ∃ r, signature_arg v (Arg.mk n none) (some d) wc s =
        .ok ({ s with result := r }, true) ∧
      r.flatten = s.result.flatten ++
        (if wc then ", ".data else []) ++ n ++ "=".data ++ t := by
  obtain ⟨r1, hr1, hf1⟩ :=
    hd { s with result := ((s.result ++ (if wc then [", ".data] else [])) ++ [n]) ++
          ["=".data] } (by simp [hs])
  dsimp only at hr1 hf1
  refine ⟨r1, ?_, ?_⟩
  · rw [signature_arg]
    rw [comma_if s wc hs]
    have h2 : write { s with result := s.result ++ (if wc then [", ".data] else []) }
        (Arg.mk n none).argName none =
        { s with result := (s.result ++ (if wc then [", ".data] else [])) ++ [n] } := by
      rw [write_none_clean _ _ (by simp [hs])]
      simp [Arg.argName]
    rw [h2]
    have h3 : write { s with result := (s.result ++ (if wc then [", ".data] else [])) ++ [n] }
        "=".data none =
        { s with result := ((s.result ++ (if wc then [", ".data] else [])) ++ [n]) ++
            ["=".data] } := by
      rw [write_none_clean _ _ (by simp [hs])]
    dsimp only
    rw [h3, hr1, exc_bind_ok]
    by_cases hver : PyVersion.py30.idx ≤ v.idx <;>
      simp [hver, Arg.argAnnotation, exc_bind_ok]
  · rw [hf1]
    cases wc <;> simp [List.append_assoc]

theorem signature_args_loop_spec (v : PyVersion) :
    ∀ (names : List (List Char)) (pad : Nat) (ds : List (Expr × List Char))
      (wc : Bool) (s : GenState),
      s.new_line = false →
      (∀ p ∈ ds, RendersInline v p.1 p.2) →
      ∃ r wc', signature_args_loop v (names.map (fun n => Arg.mk n none)) pad
          (ds.map Prod.fst) wc s = .ok ({ s with result := r }, wc') ∧
        r.flatten = s.result.flatten ++
          withCommas wc (sigTexts names pad (ds.map Prod.snd)) := by
  intro names
  induction names with
  | nil =>
    intro pad ds wc s hs _
    exact ⟨s.result, wc, rfl, by simp [sigTexts, withCommas_nil]⟩
  | cons n ns ih =>
    intro pad ds wc s hs hds
    by_cases hpad : pad = 0
    · subst hpad
      cases ds with
      | nil =>
        refine ⟨s.result, wc, ?_, by simp [sigTexts, withCommas_nil]⟩
        simp [signature_args_loop]
      | cons d ds' =>
        have hd : RendersInline v d.1 d.2 := hds d (by simp)
        obtain ⟨r1, hr1, hf1⟩ := signature_arg_spec_some v n d.1 d.2 hd wc s hs
        obtain ⟨r2, wc2, hr2, hf2⟩ :=
          ih 0 ds' true { s with result := r1 } (by simp [hs])
            (fun q hq => hds q (by simp [hq]))
        refine ⟨r2, wc2, ?_, ?_⟩
        · simp only [List.map_cons, signature_args_loop, if_pos rfl]
          rw [hr1, exc_bind_ok]
          dsimp only
          exact hr2
        · rw [hf2]
          dsimp only
          rw [hf1]
          simp only [List.map_cons, sigTexts, withCommas_cons]
          cases wc <;> simp [List.append_assoc]
    · obtain ⟨p, rfl⟩ : ∃ p, pad = p + 1 := ⟨pad - 1, by omega⟩
      have hr1 := signature_arg_spec_none v n wc s hs
      obtain ⟨r2, wc2, hr2, hf2⟩ :=
        ih p ds true
          { s with result := (s.result ++ (if wc then [", ".data] else [])) ++ [n] }
          (by simp [hs]) hds
      refine ⟨r2, wc2, ?_, ?_⟩
      · simp only [List.map_cons, signature_args_loop,
          if_neg (by omega : ¬p + 1 = 0)]
        rw [hr1, exc_bind_ok]
        dsimp only
        have hps : p + 1 - 1 = p := by omega
        rw [hps]
        exact hr2
      · rw [hf2]
        dsimp only
        simp only [sigTexts, withCommas_cons]
        cases wc <;> simp [List.append_assoc]

theorem signature_spec (v : PyVersion) (names : List (List Char))
    (ds : List (Expr × List Char)) (s : GenState)
    (hs : s.new_line = false)
    (hds : ∀ p ∈ ds, RendersInline v p.1 p.2) :
    ∃ r wc', signature v
        (Arguments.mk (names.map (fun n => Arg.mk n none)) none none
          (ds.map Prod.fst)) s = .ok ({ s with result := r }, wc') ∧
      r.flatten = s.result.flatten ++
        withCommas false
          (sigTexts names (names.length - ds.length) (ds.map Prod.snd)) := by
  obtain ⟨r, wc', h, f⟩ :=
    signature_args_loop_spec v names
      ((names.map (fun n => Arg.mk n none)).length - (ds.map Prod.fst).length)
      ds false s hs hds
  refine ⟨r, wc', ?_, ?_⟩
  · rw [signature]
    dsimp only [Arguments.args, Arguments.defaults, Arguments.vararg,
      Arguments.kwarg]
    rw [h, exc_bind_ok]
    rfl
  · rw [f]
    simp [List.length_map]

theorem sigTexts_eq (names : List (List Char)) :
    ∀ dts : List (List Char), dts.length ≤ names.length →
      sigTexts names (names.length - dts.length) dts =
        names.take (names.length - dts.length) ++
          List.zipWith (fun n d => n ++ "=".data ++ d)
            (names.drop (names.length - dts.length)) dts := by
  induction names with
  | nil =>
    intro dts h
    cases dts with
    | nil => simp [sigTexts]
    | cons d ds => simp at h
  | cons n ns ih =>
    intro dts h
    by_cases heq : dts.length = (n :: ns).length
    · have h0 : (n :: ns).length - dts.length = 0 := by omega
      rw [h0]
      cases dts with
      | nil => simp at heq
      | cons d ds =>
        have hlen : ds.length = ns.length := by
          simp at heq
          omega
        have hns : ns.length - ds.length = 0 := by omega
        have := ih ds (by omega)
        rw [hns] at this
        simp only [sigTexts, List.take_zero, List.drop_zero, List.nil_append,
          List.zipWith_cons_cons] at this ⊢
        rw [this]
    · have hlt : dts.length < (n :: ns).length := by
        simp at heq ⊢
        simp at h
        omega
      have hk : (n :: ns).length - dts.length = (ns.length - dts.length) + 1 := by
        simp at hlt ⊢
        omega
      rw [hk]
      have hdle : dts.length ≤ ns.length := by
        simp at hlt
        omega
      have := ih dts hdle
      simp only [sigTexts]
      rw [this, List.take_succ_cons, List.drop_succ_cons, List.cons_append]

/-- Claim C4: for N positional parameters with D trailing defaults
(D at most N), the signature renders the first N-D parameter names bare
and the last D as name=default, comma-separated with no separator before
the first rendered parameter; and an empty parameter list (no positionals,
no vararg, no kwarg) renders nothing between the parentheses of
def f():. -/
theorem claim_C4 (v : PyVersion) (s : GenState) (names : List (List Char))
    (ds : List (Expr × List Char))
    (hs : s.new_line = false)
    (hlen : ds.length ≤ names.length)
    (hds : ∀ p ∈ ds, RendersInline v p.1 p.2) :
    (∃ r wc', signature v
        (Arguments.mk (names.map (fun n => Arg.mk n none)) none none
          (ds.map Prod.fst)) s = .ok ({ s with result := r }, wc') ∧
      r.flatten = s.result.flatten ++
        List.intercalate ", ".data
          (names.take (names.length - ds.length) ++
           List.zipWith (fun n d => n ++ "=".data ++ d)
             (names.drop (names.length - ds.length)) (ds.map Prod.snd))) ∧
    to_source PyVersion.py26
        [Stmt.FunctionDef "f".data (Arguments.mk [] none none [])
          [Stmt.Pass (some 2)] [] none (some 1)] "    ".data =
      Except.ok "def f():\n    pass".data := by
  constructor
  · obtain ⟨r, wc', h, f⟩ := signature_spec v names ds s hs hds
    refine ⟨r, wc', h, ?_⟩
    rw [f, withCommas_false_intercalate]
    have hb := sigTexts_eq names (ds.map Prod.snd) (by rw [List.length_map]; exact hlen)
    rw [List.length_map] at hb
    rw [hb]
  · decide

/-- Witness for C4: def f(a, b=1) renders the undecorated a then b=1. -/
theorem claim_C4_witness :
    1 ≤ 2 ∧
      ((∃ r wc', signature PyVersion.py26
          (Arguments.mk [Arg.mk "a".data none, Arg.mk "b".data none] none none
            [Expr.Num 1]) (initState "    ".data) =
            .ok ({ initState "    ".data with result := r }, wc') ∧
          r.flatten = "a, b=1".data) ∧
        to_source PyVersion.py26
            [Stmt.FunctionDef "f".data (Arguments.mk [] none none [])
              [Stmt.Pass (some 2)] [] none (some 1)] "    ".data =
          Except.ok "def f():\n    pass".data) :=
  ⟨by decide,
    claim_C4 PyVersion.py26 (initState "    ".data) ["a".data, "b".data]
      [(Expr.Num 1, "1".data)] rfl (by decide)
      (by
        intro p hp
        simp only [List.mem_singleton] at hp
        subst hp
        exact rendersInline_num _ _)⟩

theorem write_some_at (σ : GenState) (x : List Char) (L : Nat)
    (hn : σ.new_line = false) (hL : L ≤ lines_in σ) :
    write σ x (some L) = { σ with result := σ.result ++ [x] } := by
  rw [write, correct_line_number]
  simp only [hn, Bool.false_eq_true, if_false]
  rw [add_missing_lines_le σ L hL]
  simp [hn]

theorem newline_eq (σ : GenState) (L : Nat) :
    newline σ (some L) =
      add_missing_lines (write_newline { σ with new_line := true }) L := by
  rw [newline]
  simp [correct_line_number]

theorem newline_some_empty (σ : GenState) (L : Nat)
    (h0 : σ.indentation = 0) (he : σ.result = []) (hL : 1 ≤ L) :
    newline σ (some L) =
      { σ with result := [[]] ++ nlFrags (L - 1), new_line := false } := by
  rw [newline_eq, write_newline_of_empty _ (by simp [h0]) (by simp [he])]
  rw [add_missing_lines_zero_indent _ L (by simp [h0]) (by simp) (by simp)]
  have hl1 : lines_in { σ with result := [[]], new_line := false } = 1 := by
    rw [lines_in]
    simp [pySplitNl]
  rw [hl1]

theorem newline_some_nonempty (σ : GenState) (L : Nat)
    (h0 : σ.indentation = 0) (hne : σ.result ≠ []) (hL : lines_in σ < L) :
    newline σ (some L) =
      { σ with
        result := (σ.result ++ [['\n'], []]) ++ nlFrags (L - (lines_in σ + 1)),
        new_line := false } := by
  rw [newline_eq, write_newline_zero _ (by simp [h0]) (by simp [hne])]
  rw [add_missing_lines_zero_indent _ L (by simp [h0]) (by simp) (by simp)]
  have hl1 : lines_in { σ with result := σ.result ++ [['\n'], []], new_line := false } =
      lines_in σ + 1 := by
    rw [lines_in_eq _ (by simp), lines_in_eq _ hne]
    simp [List.flatten_append]
  rw [hl1]

theorem simple_stmt_render (v : PyVersion) (st : Stmt) (L : Nat) (t : List Char)
    (h : stmtSimple st = some (L, t)) (σ σ1 : GenState)
    (hnl : newline σ (some L) = σ1)
    (hn1 : σ1.new_line = false) (hl1 : lines_in σ1 = L) :
    visitStmt v st σ = .ok { σ1 with result := σ1.result ++ [t] } := by
  cases st with
  | Pass ln =>
    cases ln with
    | none => simp [stmtSimple] at h
    | some l =>
      simp only [stmtSimple, Option.some.injEq, Prod.mk.injEq] at h
      obtain ⟨rfl, rfl⟩ := h
      show Except.ok (write (newline σ (some l)) "pass".data (some l)) = _
      rw [hnl, write_some_at σ1 _ l hn1 (by omega)]
  | Break ln =>
    cases ln with
    | none => simp [stmtSimple] at h
    | some l =>
      simp only [stmtSimple, Option.some.injEq, Prod.mk.injEq] at h
      obtain ⟨rfl, rfl⟩ := h
      show Except.ok (write (newline σ (some l)) "break".data none) = _
      rw [hnl, write_none_clean σ1 _ hn1]
  | Continue ln =>
    cases ln with
    | none => simp [stmtSimple] at h
    | some l =>
      simp only [stmtSimple, Option.some.injEq, Prod.mk.injEq] at h
      obtain ⟨rfl, rfl⟩ := h
      show Except.ok (write (newline σ (some l)) "continue".data none) = _
      rw [hnl, write_none_clean σ1 _ hn1]
  | Global names ln =>
    cases ln with
    | none => simp [stmtSimple] at h
    | some l =>
      simp only [stmtSimple, Option.some.injEq, Prod.mk.injEq] at h
      obtain ⟨rfl, rfl⟩ := h
      show Except.ok (write (newline σ (some l))
        ("global ".data ++ List.intercalate ", ".data names) none) = _
      rw [hnl, write_none_clean σ1 _ hn1]
  | ExprStmt e ln => simp [stmtSimple] at h
  | Return e ln => simp [stmtSimple] at h
  | FunctionDef nm args body decs returns ln => simp [stmtSimple] at h
  | ClassDef nm bases kws body decs ln => simp [stmtSimple] at h

/-- Claim C2: two consecutive simple statements at the top block level with
line numbers L1 < L2 (1-based, texts free of embedded newlines) render with
exactly L2 - L1 - 1 blank output lines between the first statement's text
and the second's: the split of the output on newlines is L1 - 1 leading
blanks, the first text, L2 - L1 - 1 blanks, and the second text. -/
theorem claim_C2 (v : PyVersion) (iw : List Char) (s1 s2 : Stmt)
    (L1 L2 : Nat) (t1 t2 : List Char)
    (h1 : stmtSimple s1 = some (L1, t1)) (h2 : stmtSimple s2 = some (L2, t2))
    (hL1 : 1 ≤ L1) (hL12 : L1 < L2)
    (ht1 : t1.count '\n' = 0) (ht2 : t2.count '\n' = 0) :
    to_source v [s1, s2] iw =
      .ok (List.replicate (L1 - 1) '\n' ++
        (t1 ++ ('\n' :: (List.replicate (L2 - L1 - 1) '\n' ++ t2)))) ∧
    pySplitNl (List.replicate (L1 - 1) '\n' ++
        (t1 ++ ('\n' :: (List.replicate (L2 - L1 - 1) '\n' ++ t2)))) =
      List.replicate (L1 - 1) [] ++
        (t1 :: (List.replicate (L2 - L1 - 1) [] ++ [t2])) := by
  constructor
  · have hnl1 : newline (initState iw) (some L1) =
        { initState iw with result := [[]] ++ nlFrags (L1 - 1), new_line := false } :=
      newline_some_empty _ _ rfl rfl hL1
    have hml1 : lines_in { initState iw with
        result := [[]] ++ nlFrags (L1 - 1), new_line := false } = L1 := by
      rw [lines_in_eq _ (by simp)]
      simp [List.flatten_append, nlFrags_flatten]
      omega
    have hst1 := simple_stmt_render v s1 L1 t1 h1 (initState iw) _ hnl1 (by simp) hml1
    dsimp only [initState] at hst1
    have hla : lines_in
        { result := ([[]] ++ nlFrags (L1 - 1)) ++ [t1], indent_with := iw,
          indentation := 0, new_line := false } = L1 := by
      rw [lines_in_eq _ (by simp)]
      simp [List.flatten_append, nlFrags_flatten, ht1]
      omega
    have hnl2 := newline_some_nonempty
      { result := ([[]] ++ nlFrags (L1 - 1)) ++ [t1], indent_with := iw,
        indentation := 0, new_line := false } L2 rfl (by simp) (by rw [hla]; omega)
    rw [hla] at hnl2
    dsimp only at hnl2
    have hml2 : lines_in
        { result := ((([[]] ++ nlFrags (L1 - 1)) ++ [t1]) ++ [['\n'], []]) ++
            nlFrags (L2 - (L1 + 1)),
          indent_with := iw, indentation := 0, new_line := false } = L2 := by
      rw [lines_in_eq _ (by simp)]
      simp [List.flatten_append, nlFrags_flatten, ht1]
      omega
    have hst2 := simple_stmt_render v s2 L2 t2 h2
      { result := ([[]] ++ nlFrags (L1 - 1)) ++ [t1], indent_with := iw,
        indentation := 0, new_line := false } _ hnl2 (by simp) hml2
    dsimp only at hst2
    rw [to_source]
    rw [visitStmtList]
    simp only [initState]
    rw [hst1, exc_bind_ok, visitStmtList, hst2, exc_bind_ok, visitStmtList,
      exc_bind_ok]
    congr 1
    have hnum : L2 - (L1 + 1) = L2 - L1 - 1 := by omega
    simp [List.flatten_append, nlFrags_flatten, hnum, List.append_assoc]
  · rw [pySplitNl_replicate_nl]
    have hinner : pySplitNl ('\n' :: (List.replicate (L2 - L1 - 1) '\n' ++ t2)) =
        [] :: (List.replicate (L2 - L1 - 1) [] ++ [t2]) := by
      rw [pySplitNl_cons_nl, pySplitNl_replicate_nl, pySplitNl_no_nl t2 ht2]
    rw [pySplitNl_append_not_nl t1 ht1 _ _ _ hinner]
    simp

/-- Witness for C2: pass statements on lines 1 and 3 render with exactly
one blank line between them. -/
theorem claim_C2_witness :
    1 ≤ 1 ∧ 1 < 3 ∧
      (to_source PyVersion.py26 [Stmt.Pass (some 1), Stmt.Pass (some 3)]
          "    ".data = .ok "pass\n\npass".data ∧
        pySplitNl "pass\n\npass".data = ["pass".data, [], "pass".data]) :=
  ⟨by decide, by decide,
    claim_C2 PyVersion.py26 "    ".data (Stmt.Pass (some 1)) (Stmt.Pass (some 3))
      1 3 "pass".data "pass".data rfl rfl (by decide) (by decide) (by decide)
      (by decide)⟩

end Astmonkey
